import Mathlib

/-!
Verification of the wirefilter filter-expression engine against its
specification. The repository exposes two source files: the foreign-call
wrapper (ffi/src/lib.rs) and the uninhabited boolean RHS type
(engine/src/rhs_types/bool.rs). Definitions taken from those files are
embedded directly; the engine core (lexer, parser, evaluator, Context)
is not part of the provided sources, so it is modelled from the spec,
and each such definition is marked accordingly in its doc comment.

Source spans are byte offsets in the Rust code; the model tracks
character offsets, which coincide with byte offsets on the ASCII inputs
exercised here.
-/

namespace Wirefilter

/-- Value types of the filter language (the engine `Type` enum with
variants Unsigned, Ip, Bytes, Bool). Named VType because `Type` is a
Lean keyword. -/
inductive VType
  | Unsigned
  | Ip
  | Bytes
  | Bool
deriving DecidableEq

/-- Rendering of a value type name, as it appears in fatal error
messages (matches the Rust Display/Debug output used in the panic
message of the type-drift test). -/
def VType.display : VType → String
  | .Unsigned => "Unsigned"
  | .Ip => "Ip"
  | .Bytes => "Bytes"
  | .Bool => "Bool"

/-- Uninhabited / empty type for bool with traits needed for RHS
values (engine/src/rhs_types/bool.rs: `pub enum UninhabitedBool {}`).
It has no constructors, exactly like the empty Rust enum. -/
inductive UninhabitedBool : Type

/-- Embedding of `impl Borrow<bool> for UninhabitedBool`: the body is
`match *self {}`, an empty match, which Lean renders as elimination of
the empty type. -/
def UninhabitedBool.borrowBool : UninhabitedBool → Bool :=
  fun u => nomatch u

/-- Embedding of `impl PartialEq<UninhabitedBool> for bool`: body is an
empty match on the uninhabited argument. -/
def boolEqUninhabited : Bool → UninhabitedBool → Bool :=
  fun _ u => nomatch u

/-- Embedding of `impl PartialOrd<UninhabitedBool> for bool`: body is
an empty match on the uninhabited argument. -/
def boolPartialCmpUninhabited : Bool → UninhabitedBool → Option Ordering :=
  fun _ u => nomatch u

/-- Modelled from the spec: IP addresses (parsed IPv4/IPv6). The
engine and std library IP types are not in src/. Dotted-quad IPv4 is
the form every claim exercises; colon-hex IPv6 is carried as a segment
list so the type matches the two-variant shape of the real IpAddr. -/
inductive IpAddr
  | V4 (a b c d : Nat)
  | V6 (segs : List Nat)
deriving DecidableEq

/-- Modelled from the spec: total order on IP addresses used by
ordering comparisons (natural order on the decoded value; V4 sorts
before V6 as in the Rust IpAddr ordering). -/
def IpAddr.cmp : IpAddr → IpAddr → Ordering
  | .V4 a b c d, .V4 e f g h =>
    (compare a e).then ((compare b f).then ((compare c g).then (compare d h)))
  | .V4 _ _ _ _, .V6 _ => .lt
  | .V6 _, .V4 _ _ _ _ => .gt
  | .V6 x, .V6 y => compare x y

/-- Right-hand-side (literal) values: the RhsValue tagged union. The
Bool arm carries the uninhabited type, so no boolean literal value can
ever be constructed. -/
inductive RhsValue
  | Unsigned (n : Nat)
  | Ip (ip : IpAddr)
  | Bytes (bytes : String)
  | Bool (b : UninhabitedBool)

/-- Left-hand-side (runtime) values: the LhsValue tagged union
populated through the execution-context insertion functions. -/
inductive LhsValue
  | Unsigned (n : Nat)
  | Ip (ip : IpAddr)
  | Bytes (bytes : String)
  | Bool (b : Bool)
deriving DecidableEq

/-- Type tag of a literal value. -/
def RhsValue.typeOf : RhsValue → VType
  | .Unsigned _ => .Unsigned
  | .Ip _ => .Ip
  | .Bytes _ => .Bytes
  | .Bool _ => .Bool

/-- Type tag of a runtime value. -/
def LhsValue.typeOf : LhsValue → VType
  | .Unsigned _ => .Unsigned
  | .Ip _ => .Ip
  | .Bytes _ => .Bytes
  | .Bool _ => .Bool

/-- Lexer error kinds. Modelled from the spec: the engine LexErrorKind
enum is not in src/; the kinds and their rendered messages follow the
spec (expected digit, unterminated string, invalid IP literal, unknown
field, trailing input) and the message pinned by the FFI test. -/
inductive LexErrorKind
  | ExpectedDigit
  | ExpectedName
  | ExpectedChar (c : Char)
  | UnknownField (name : String)
  | UnsupportedOp
  | UnterminatedString
  | InvalidIp
  | InvalidRegex
  | TrailingInput
  | Eof
deriving DecidableEq

/-- Modelled from the spec: the Display rendering of a lexer error
kind ("expected digit" is pinned by the diagnostic-exactness test). -/
def LexErrorKind.display : LexErrorKind → String
  | .ExpectedDigit => "expected digit"
  | .ExpectedName => "expected name"
  | .ExpectedChar c => "expected character " ++ String.mk [c]
  | .UnknownField name => "unknown field " ++ name
  | .UnsupportedOp => "operator not supported for this type"
  | .UnterminatedString => "unterminated string"
  | .InvalidIp => "invalid IP literal"
  | .InvalidRegex => "invalid regex"
  | .TrailingInput => "unexpected trailing input"
  | .Eof => "unexpected end of input"

/-- A positioned lexer/parser error: kind, span start offset, span
length, all relative to the original input. -/
abbrev LexError := LexErrorKind × Nat × Nat

/-- The ParseError struct from ffi/src/lib.rs: message, span start,
span length and the original input string. -/
structure ParseError where
  msg : String
  span_start : Nat
  span_len : Nat
  input : String

/-- Embedding of `ParseError::new`: the Rust code recovers the span
start as a pointer difference between the span slice and the input and
takes the slice length; the model receives those two numbers directly
from the parser. -/
def ParseError.new (input : String) (err : LexError) : ParseError :=
  { msg := err.1.display
    span_start := err.2.1
    span_len := err.2.2
    input := input }

/-- A counted write loop: `for _ in 0..n { write!(f, c)? }` from the
Display impl, pushing the character n times onto the accumulated
output. -/
def pushRepeated (acc : String) (c : Char) : Nat → String
  | 0 => acc
  | Nat.succ k => pushRepeated (acc.push c) c k

/-- Embedding of `impl Display for ParseError` from ffi/src/lib.rs:
a header line, the input between backticks, 1 + span_start spaces,
max(1, span_len) carets, a space and the message. -/
def ParseError.display (e : ParseError) : String :=
  let s := "Filter parsing error:" ++ "\n"
  let s := s ++ "`" ++ e.input ++ "`" ++ "\n"
  let s := pushRepeated s ' ' (1 + e.span_start)
  let s := pushRepeated s '^' (max 1 e.span_len)
  s ++ " " ++ e.msg ++ "\n"

theorem pushRepeated_eq (n : Nat) : ∀ (acc : String) (c : Char),
    pushRepeated acc c n = acc ++ String.mk (List.replicate n c) := by
  induction n with
  | zero =>
    intro acc c
    apply String.ext
    simp [pushRepeated]
  | succ k ih =>
    intro acc c
    apply String.ext
    simp only [pushRepeated, ih, String.data_append, String.data_push, List.replicate]
    simp

/-- Modelled from the spec: the engine Context type (an ordered
mapping from keys to values; the Scheme and the Execution Context are
both instances). The engine crate is not in src/. Kept as an ordered
association list. -/
def Context (K V : Type) : Type := List (K × V)

/-- Modelled from the spec: insertion into a Context. Re-insertion
under an existing name overwrites the binding in place (last write
wins); a fresh name is appended, preserving insertion order. -/
def Context.insert {K V : Type} [DecidableEq K] :
    Context K V → K → V → Context K V
  | [], k, v => [(k, v)]
  | (kx, vx) :: rest, k, v =>
    if kx = k then (k, v) :: rest
    else (kx, vx) :: Context.insert rest k v

/-- Modelled from the spec: lookup of the value bound to a name in a
Context, if any. -/
def Context.lookup {K V : Type} [DecidableEq K] :
    Context K V → K → Option V
  | [], _ => none
  | (kx, vx) :: rest, k => if kx = k then some vx else Context.lookup rest k

/-- The Scheme type alias from ffi/src/lib.rs:
`pub type Scheme = Context<String, Type>`. -/
abbrev Scheme := Context String VType

/-- The ExecutionContext type alias from ffi/src/lib.rs:
`pub type ExecutionContext<'a> = Context<&'a str, LhsValue<'a>>`. -/
abbrev ExecutionContext := Context String LhsValue

/-- Splitting of a character list at every dot, the shape std uses for
dotted-quad IPv4 text. -/
def splitDots : List Char → List (List Char)
  | [] => [[]]
  | '.' :: rest => [] :: splitDots rest
  | c :: rest =>
    match splitDots rest with
    | [] => [[c]]
    | g :: gs => (c :: g) :: gs

/-- One dotted-quad component: one to three decimal digits with value
at most 255. -/
def parseOctet (s : List Char) : Option Nat :=
  if s.length = 0 ∨ 3 < s.length then none
  else if s.all Char.isDigit then
    let n := s.foldl (fun acc c => acc * 10 + (c.toNat - 48)) 0
    if n ≤ 255 then some n else none
  else none

/-- Modelled from the spec: the std IpAddr::from_str parse used by the
IP insertion wrapper, on the dotted-quad IPv4 form (the only form any
claim input uses; colon-hex IPv6 text is reported as unparseable by
this model). The std library is outside src/. -/
def IpAddr.fromStr (s : String) : Option IpAddr :=
  match (splitDots s.data).map parseOctet with
  | [some a, some b, some c, some d] => some (IpAddr.V4 a b c d)
  | _ => none

/-- A single element of a compiled pattern: a literal character or the
digit class from a backslash-d escape. -/
inductive RegexAtom
  | lit (c : Char)
  | digitCls
deriving DecidableEq

/-- Quantifier on a pattern element: exactly once, or one-or-more from
a plus sign. -/
inductive RegexQuant
  | one
  | plus
deriving DecidableEq

/-- One quantified element of a compiled pattern. -/
structure RegexPiece where
  atom : RegexAtom
  quant : RegexQuant
deriving DecidableEq

/-- Modelled from the spec: compilation of a pattern literal into a
matcher (the regex engine is outside src/). Supports literal
characters, backslash escapes with backslash-d as the digit class, and
the plus quantifier — the constructs of every pattern a claim uses.
The accumulator holds the compiled pieces in reverse. -/
def compileRegexAux : List RegexPiece → List Char → Option (List RegexPiece)
  | acc, [] => some acc.reverse
  | _, ['\\'] => none
  | acc, '\\' :: 'd' :: rest =>
    compileRegexAux ({ atom := .digitCls, quant := .one } :: acc) rest
  | acc, '\\' :: c :: rest =>
    compileRegexAux ({ atom := .lit c, quant := .one } :: acc) rest
  | acc, '+' :: rest =>
    match acc with
    | [] => none
    | p :: ps =>
      match p.quant with
      | .one => compileRegexAux ({ atom := p.atom, quant := .plus } :: ps) rest
      | .plus => none
  | acc, c :: rest =>
    compileRegexAux ({ atom := .lit c, quant := .one } :: acc) rest

/-- Compilation entry point for a pattern literal. -/
def compileRegex (pattern : List Char) : Option (List RegexPiece) :=
  compileRegexAux [] pattern

/-- Test of one pattern atom against one character. -/
def matchAtom : RegexAtom → Char → Bool
  | .lit x, c => c == x
  | .digitCls, c => c.isDigit

/-- Anchored match of a compiled pattern at the start of the text,
allowing trailing text; a plus-quantified atom consumes one character
and then either moves on or consumes more. -/
def matchHere : List RegexPiece → List Char → Bool
  | [], _ => true
  | _ :: _, [] => false
  | p :: ps, c :: cs =>
    if matchAtom p.atom c then
      match p.quant with
      | .one => matchHere ps cs
      | .plus => matchHere ps cs || matchHere (p :: ps) cs
    else false
termination_by structural _ s => s

/-- Modelled from the spec: unanchored pattern match (the tilde
operator tests whether the compiled pattern matches anywhere in the
byte sequence, as regex is_match does). -/
def regexIsMatch (pieces : List RegexPiece) : List Char → Bool
  | [] => matchHere pieces []
  | c :: cs => matchHere pieces (c :: cs) || regexIsMatch pieces cs

/-- Comparison operators of the language (engine OrderingOp). -/
inductive OrderingOp
  | Equal
  | NotEqual
  | GreaterThanEqual
  | LessThanEqual
  | GreaterThan
  | LessThan
deriving DecidableEq

/-- Logical connectives of Combine nodes (engine CombiningOp). -/
inductive CombiningOp
  | And
  | Or
deriving DecidableEq

/-- Operation stored in a leaf node: an ordering/equality comparison
against a literal, or a pattern match against a compiled pattern
(engine FilterOp). -/
inductive FilterOp
  | Ordering (op : OrderingOp) (rhs : RhsValue)
  | Matches (pattern : List RegexPiece)

/-- The Filter syntax tree: a leaf comparing one field against a
literal, a logical combination of an ordered child sequence, or the
negation of a single child. Negation is modelled as a dedicated
single-child node. -/
inductive Filter
  | Op (field : String) (op : FilterOp)
  | Combine (op : CombiningOp) (children : List Filter)
  | Not (child : Filter)

/-- Truth of an ordering comparison operator on a concrete comparison
outcome. -/
def OrderingOp.matches : OrderingOp → Ordering → Bool
  | .Equal, .eq => true
  | .Equal, _ => false
  | .NotEqual, .eq => false
  | .NotEqual, _ => true
  | .GreaterThanEqual, .lt => false
  | .GreaterThanEqual, _ => true
  | .LessThanEqual, .gt => false
  | .LessThanEqual, _ => true
  | .GreaterThan, .gt => true
  | .GreaterThan, _ => false
  | .LessThan, .lt => true
  | .LessThan, _ => false

/-- Byte-for-byte lexicographic comparison of two character lists
(byte sequences; all claim inputs are ASCII so characters coincide
with bytes). -/
def cmpChars : List Char → List Char → Ordering
  | [], [] => .eq
  | [], _ :: _ => .lt
  | _ :: _, [] => .gt
  | a :: as, b :: bs => (compare a.toNat b.toNat).then (cmpChars as bs)

/-- Modelled from the spec: comparison of a runtime value against a
literal of the same type tag — natural order on unsigned integers and
IP addresses, byte-for-byte order on byte sequences; none when the
tags differ. A Bool literal is uninhabited, so that arm is closed by
elimination. -/
def compareLhsRhs : LhsValue → RhsValue → Option Ordering
  | .Unsigned n, .Unsigned m => some (compare n m)
  | .Ip a, .Ip b => some (IpAddr.cmp a b)
  | .Bytes a, .Bytes b => some (cmpChars a.data b.data)
  | _, .Bool u => nomatch u
  | _, _ => none

/-- The fatal message raised when a field's runtime value tag differs
from the tag its literal was parsed with (pinned by the type-drift
test of ffi/src/lib.rs). -/
def typeErrMsg (field : String) (expected actual : VType) : String :=
  "Field " ++ field ++ " was previously registered with type " ++
    expected.display ++ " but now contains " ++ actual.display

/-- The fatal message raised when a referenced field is absent from
the Execution Context (pinned by the missing-value test of
ffi/src/lib.rs). -/
def missingFieldMsg (field : String) : String :=
  "Could not find previously registered field " ++ field

/-- Modelled from the spec: evaluation of one leaf against the runtime
value found for its field — a type-tag mismatch is a fatal usage
error naming the expected and the actual type. -/
def evalOp (field : String) (lhs : LhsValue) : FilterOp → Except String Bool
  | .Ordering op rhs =>
    match compareLhsRhs lhs rhs with
    | some o => .ok (op.matches o)
    | none => .error (typeErrMsg field rhs.typeOf lhs.typeOf)
  | .Matches pat =>
    match lhs with
    | .Bytes b => .ok (regexIsMatch pat b.data)
    | lhs => .error (typeErrMsg field .Bytes lhs.typeOf)

mutual

/-- Modelled from the spec: the evaluator — a pure recursive walk of
the Filter tree against an Execution Context. A missing field is a
fatal usage error naming the field; fatal errors are modelled as the
error arm of Except. -/
def Filter.execute (ctx : ExecutionContext) : Filter → Except String Bool
  | .Op field fop =>
    match Context.lookup ctx field with
    | none => .error (missingFieldMsg field)
    | some lhs => evalOp field lhs fop
  | .Combine .And children => Filter.executeAnd ctx children
  | .Combine .Or children => Filter.executeOr ctx children
  | .Not child =>
    match Filter.execute ctx child with
    | .ok b => .ok (!b)
    | .error e => .error e

/-- Modelled from the spec: And children evaluate left to right and
short-circuit to false on the first false child. -/
def Filter.executeAnd (ctx : ExecutionContext) : List Filter → Except String Bool
  | [] => .ok true
  | c :: rest =>
    match Filter.execute ctx c with
    | .ok true => Filter.executeAnd ctx rest
    | .ok false => .ok false
    | .error e => .error e

/-- Modelled from the spec: Or children evaluate left to right and
short-circuit to true on the first true child. -/
def Filter.executeOr (ctx : ExecutionContext) : List Filter → Except String Bool
  | [] => .ok false
  | c :: rest =>
    match Filter.execute ctx c with
    | .ok true => .ok true
    | .ok false => Filter.executeOr ctx rest
    | .error e => .error e

end

/-- FFI wrapper from ffi/src/lib.rs: declare an Unsigned field in a
scheme. -/
def wirefilter_add_unsigned_type_field_to_scheme
    (scheme : Scheme) (name : String) : Scheme :=
  Context.insert scheme name .Unsigned

/-- FFI wrapper from ffi/src/lib.rs: declare an Ip field in a
scheme. -/
def wirefilter_add_ip_type_field_to_scheme
    (scheme : Scheme) (name : String) : Scheme :=
  Context.insert scheme name .Ip

/-- FFI wrapper from ffi/src/lib.rs: declare a Bytes field in a
scheme. -/
def wirefilter_add_bytes_type_field_to_scheme
    (scheme : Scheme) (name : String) : Scheme :=
  Context.insert scheme name .Bytes

/-- FFI wrapper from ffi/src/lib.rs: bind a field to an unsigned
runtime value in an execution context. -/
def wirefilter_add_unsigned_value_to_execution_context
    (ctx : ExecutionContext) (name : String) (value : Nat) : ExecutionContext :=
  Context.insert ctx name (.Unsigned value)

/-- FFI wrapper from ffi/src/lib.rs: bind a field to a byte-sequence
runtime value in an execution context (Bytes::from of the given
string). -/
def wirefilter_add_bytes_value_to_execution_context
    (ctx : ExecutionContext) (name : String) (value : String) : ExecutionContext :=
  Context.insert ctx name (.Bytes value)

/-- FFI wrapper from ffi/src/lib.rs: parse the value text as an IP
address; on success bind the field to the parsed address, on failure
return without touching the context. The std from_str parse the Rust
code calls is passed in as a function, so the statement covers any
address parser. -/
def wirefilter_add_ip_value_to_execution_context
    (fromStr : String → Option IpAddr)
    (ctx : ExecutionContext) (name : String) (value : String) : ExecutionContext :=
  match fromStr value with
  | some ip => Context.insert ctx name (.Ip ip)
  | none => ctx

/-- FFI wrapper from ffi/src/lib.rs: evaluate a filter against an
execution context (`exec_context.execute(filter)`); the Rust panics
are modelled as the error arm. -/
def wirefilter_match (filter : Filter) (ctx : ExecutionContext) : Except String Bool :=
  Filter.execute ctx filter

/-- Identifier characters of field names. -/
def isIdentChar (c : Char) : Bool :=
  c.isAlphanum || c == '_'

/-- Space skipping between tokens, tracking the absolute offset. -/
def skipSpaces : List Char → Nat → (List Char × Nat)
  | ' ' :: rest, pos => skipSpaces rest (pos + 1)
  | s, pos => (s, pos)

/-- Modelled from the spec: lexing of a field name (the engine lexer
is not in src/). Takes the longest identifier run; an empty run is a
positioned error. -/
def lexName (s : List Char) (pos : Nat) : Except LexError (String × List Char × Nat) :=
  let name := s.takeWhile isIdentChar
  if name.isEmpty then .error (.ExpectedName, pos, s.length)
  else .ok (String.mk name, s.drop name.length, pos + name.length)

/-- Decimal digit run to a number. -/
def digitsToNat (ds : List Char) : Nat :=
  ds.foldl (fun acc c => acc * 10 + (c.toNat - 48)) 0

/-- Modelled from the spec: lexing of an unsigned decimal literal.
When no digit is present the error is ExpectedDigit with the whole
remaining input as the span — the span the diagnostic-exactness test
pins down with its caret line. -/
def lexNumber (s : List Char) (pos : Nat) : Except LexError (Nat × List Char × Nat) :=
  let ds := s.takeWhile Char.isDigit
  if ds.isEmpty then .error (.ExpectedDigit, pos, s.length)
  else .ok (digitsToNat ds, s.drop ds.length, pos + ds.length)

/-- Modelled from the spec: lexing of a dotted-quad IPv4 literal. -/
def lexIp (s : List Char) (pos : Nat) : Except LexError (IpAddr × List Char × Nat) :=
  let lit := s.takeWhile (fun c => c.isDigit || c == '.')
  match (splitDots lit).map parseOctet with
  | [some a, some b, some c, some d] =>
    .ok (IpAddr.V4 a b c d, s.drop lit.length, pos + lit.length)
  | _ => .error (.InvalidIp, pos, s.length)

/-- Scan of a quoted string body after the opening quote, resolving a
backslash escape to the escaped character; stops at the closing quote
and returns the content, the rest and the new offset. Reaching the end
of input is an unterminated-string error with a zero-length span. -/
def scanQuoted : List Char → Nat → Except LexError (List Char × List Char × Nat)
  | [], pos => .error (.UnterminatedString, pos, 0)
  | '"' :: rest, pos => .ok ([], rest, pos + 1)
  | '\\' :: c :: rest, pos =>
    match scanQuoted rest (pos + 2) with
    | .ok (content, after, p) => .ok (c :: content, after, p)
    | .error e => .error e
  | c :: rest, pos =>
    match scanQuoted rest (pos + 1) with
    | .ok (content, after, p) => .ok (c :: content, after, p)
    | .error e => .error e

/-- Scan of a quoted pattern body after the opening quote, keeping
backslash escapes raw so the regex compiler sees them. -/
def scanRaw : List Char → Nat → Except LexError (List Char × List Char × Nat)
  | [], pos => .error (.UnterminatedString, pos, 0)
  | '"' :: rest, pos => .ok ([], rest, pos + 1)
  | '\\' :: c :: rest, pos =>
    match scanRaw rest (pos + 2) with
    | .ok (content, after, p) => .ok ('\\' :: c :: content, after, p)
    | .error e => .error e
  | c :: rest, pos =>
    match scanRaw rest (pos + 1) with
    | .ok (content, after, p) => .ok (c :: content, after, p)
    | .error e => .error e

/-- Modelled from the spec: lexing of a quoted byte-string literal
with escape sequences. -/
def lexQuotedString (s : List Char) (pos : Nat) :
    Except LexError (String × List Char × Nat) :=
  match s with
  | '"' :: rest =>
    match scanQuoted rest (pos + 1) with
    | .ok (content, after, p) => .ok (String.mk content, after, p)
    | .error e => .error e
  | _ => .error (.ExpectedChar '"', pos, s.length)

/-- Modelled from the spec: lexing of a pattern literal after the
tilde operator — the quoted body is taken raw and compiled to a
matcher. -/
def lexPattern (s : List Char) (pos : Nat) :
    Except LexError (List RegexPiece × List Char × Nat) :=
  match s with
  | '"' :: rest =>
    match scanRaw rest (pos + 1) with
    | .ok (content, after, p) =>
      match compileRegex content with
      | some pieces => .ok (pieces, after, p)
      | none => .error (.InvalidRegex, pos, p - pos)
    | .error e => .error e
  | _ => .error (.ExpectedChar '"', pos, s.length)

/-- A lexed comparison operator token: an ordering/equality operator
or the tilde pattern-match operator. -/
inductive CompOpTok
  | ord (o : OrderingOp)
  | matchesTok
deriving DecidableEq

/-- Modelled from the spec: lexing of a comparison operator, longest
symbol first. -/
def lexCompOp (s : List Char) (pos : Nat) :
    Except LexError (CompOpTok × List Char × Nat) :=
  match s with
  | '=' :: '=' :: rest => .ok (.ord .Equal, rest, pos + 2)
  | '!' :: '=' :: rest => .ok (.ord .NotEqual, rest, pos + 2)
  | '>' :: '=' :: rest => .ok (.ord .GreaterThanEqual, rest, pos + 2)
  | '<' :: '=' :: rest => .ok (.ord .LessThanEqual, rest, pos + 2)
  | '>' :: rest => .ok (.ord .GreaterThan, rest, pos + 1)
  | '<' :: rest => .ok (.ord .LessThan, rest, pos + 1)
  | '~' :: rest => .ok (.matchesTok, rest, pos + 1)
  | _ => .error (.UnsupportedOp, pos, s.length)

/-- Consumption of a keyword: the remaining input after the given
word, provided the word is present and not followed by a further
identifier character. -/
def afterKeyword : List Char → List Char → Option (List Char)
  | [], [] => some []
  | [], c :: rest => if isIdentChar c then none else some (c :: rest)
  | k :: ks, c :: rest => if c == k then afterKeyword ks rest else none
  | _ :: _, [] => none

/-- Recognition of the And connective: two ampersands or the keyword
"and"; returns the rest and the consumed length. -/
def peekAndTok (s : List Char) : Option (List Char × Nat) :=
  match s with
  | '&' :: '&' :: rest => some (rest, 2)
  | _ =>
    match afterKeyword ['a', 'n', 'd'] s with
    | some rest => some (rest, 3)
    | none => none

/-- Recognition of the Or connective: two pipes or the keyword "or";
returns the rest and the consumed length. -/
def peekOrTok (s : List Char) : Option (List Char × Nat) :=
  match s with
  | '|' :: '|' :: rest => some (rest, 2)
  | _ =>
    match afterKeyword ['o', 'r'] s with
    | some rest => some (rest, 3)
    | none => none

/-- Whether an ordering operator is a pure equality test, the only
ordering operators legal on Bytes fields. -/
def isEqOp : OrderingOp → Bool
  | .Equal => true
  | .NotEqual => true
  | _ => false

mutual

/-- Modelled from the spec: the Or precedence level — And-level
expressions folded left-associatively, a run of the same connective
flattened into one Combine node. The engine parser is not in src/;
recursion is driven by a fuel argument, always called with more fuel
than the input length can consume. -/
def parseOr (fuel : Nat) (scheme : Scheme) (s : List Char) (pos : Nat) :
    Except LexError (Filter × List Char × Nat) :=
  match fuel with
  | 0 => .error (.Eof, pos, 0)
  | Nat.succ f =>
    match parseAnd f scheme s pos with
    | .ok (first, s1, p1) => parseOrRest f scheme [first] s1 p1
    | .error e => .error e
termination_by structural fuel

/-- Modelled from the spec: the collection loop of an Or run — while
the next token is an Or connective, parse one more And-level child and
append it; a single child stays bare, two or more become one flat
Combine Or node. -/
def parseOrRest (fuel : Nat) (scheme : Scheme) (acc : List Filter)
    (s : List Char) (pos : Nat) : Except LexError (Filter × List Char × Nat) :=
  match fuel with
  | 0 => .error (.Eof, pos, 0)
  | Nat.succ f =>
    let (s1, p1) := skipSpaces s pos
    match peekOrTok s1 with
    | some (rest, n) =>
      match parseAnd f scheme rest (p1 + n) with
      | .ok (next, s2, p2) => parseOrRest f scheme (acc ++ [next]) s2 p2
      | .error e => .error e
    | none =>
      match acc with
      | [single] => .ok (single, s1, p1)
      | children => .ok (.Combine .Or children, s1, p1)
termination_by structural fuel

/-- Modelled from the spec: the And precedence level, folding a run of
And connectives into one flat Combine node of Not-level children. -/
def parseAnd (fuel : Nat) (scheme : Scheme) (s : List Char) (pos : Nat) :
    Except LexError (Filter × List Char × Nat) :=
  match fuel with
  | 0 => .error (.Eof, pos, 0)
  | Nat.succ f =>
    match parseNot f scheme s pos with
    | .ok (first, s1, p1) => parseAndRest f scheme [first] s1 p1
    | .error e => .error e
termination_by structural fuel

/-- Modelled from the spec: the collection loop of an And run,
symmetric to the Or loop. -/
def parseAndRest (fuel : Nat) (scheme : Scheme) (acc : List Filter)
    (s : List Char) (pos : Nat) : Except LexError (Filter × List Char × Nat) :=
  match fuel with
  | 0 => .error (.Eof, pos, 0)
  | Nat.succ f =>
    let (s1, p1) := skipSpaces s pos
    match peekAndTok s1 with
    | some (rest, n) =>
      match parseNot f scheme rest (p1 + n) with
      | .ok (next, s2, p2) => parseAndRest f scheme (acc ++ [next]) s2 p2
      | .error e => .error e
    | none =>
      match acc with
      | [single] => .ok (single, s1, p1)
      | children => .ok (.Combine .And children, s1, p1)
termination_by structural fuel

/-- Modelled from the spec: the unary negation level — an exclamation
mark or the keyword "not" negates the next Not-level expression. -/
def parseNot (fuel : Nat) (scheme : Scheme) (s : List Char) (pos : Nat) :
    Except LexError (Filter × List Char × Nat) :=
  match fuel with
  | 0 => .error (.Eof, pos, 0)
  | Nat.succ f =>
    let (s1, p1) := skipSpaces s pos
    match s1 with
    | '!' :: rest =>
      match parseNot f scheme rest (p1 + 1) with
      | .ok (child, s2, p2) => .ok (.Not child, s2, p2)
      | .error e => .error e
    | _ =>
      match afterKeyword ['n', 'o', 't'] s1 with
      | some rest =>
        match parseNot f scheme rest (p1 + 3) with
        | .ok (child, s2, p2) => .ok (.Not child, s2, p2)
        | .error e => .error e
      | none => parseAtom f scheme s1 p1
termination_by structural fuel

/-- Modelled from the spec: a primary expression — a parenthesized
sub-expression, or one comparison `field operator literal` where the
field resolves against the Scheme, the operator must be legal for the
field's declared type, and the literal is parsed with the
type-directed grammar (digits for Unsigned, dotted quad for Ip, quoted
string for Bytes equality, pattern for Bytes after the tilde). -/
def parseAtom (fuel : Nat) (scheme : Scheme) (s : List Char) (pos : Nat) :
    Except LexError (Filter × List Char × Nat) :=
  match fuel with
  | 0 => .error (.Eof, pos, 0)
  | Nat.succ f =>
    match s with
    | '(' :: rest =>
      match parseOr f scheme rest (pos + 1) with
      | .ok (inner, s1, p1) =>
        let (s2, p2) := skipSpaces s1 p1
        match s2 with
        | ')' :: rest2 => .ok (inner, rest2, p2 + 1)
        | _ => .error (.ExpectedChar ')', p2, s2.length)
      | .error e => .error e
    | _ =>
      match lexName s pos with
      | .ok (field, s1, p1) =>
        match Context.lookup scheme field with
        | none => .error (.UnknownField field, pos, p1 - pos)
        | some ty =>
          let (s2, p2) := skipSpaces s1 p1
          match lexCompOp s2 p2 with
          | .ok (tok, s3, p3) =>
            let (s4, p4) := skipSpaces s3 p3
            match ty, tok with
            | .Unsigned, .ord o =>
              match lexNumber s4 p4 with
              | .ok (n, s5, p5) =>
                .ok (.Op field (.Ordering o (.Unsigned n)), s5, p5)
              | .error e => .error e
            | .Ip, .ord o =>
              match lexIp s4 p4 with
              | .ok (ip, s5, p5) =>
                .ok (.Op field (.Ordering o (.Ip ip)), s5, p5)
              | .error e => .error e
            | .Bytes, .ord o =>
              if isEqOp o then
                match lexQuotedString s4 p4 with
                | .ok (b, s5, p5) =>
                  .ok (.Op field (.Ordering o (.Bytes b)), s5, p5)
                | .error e => .error e
              else .error (.UnsupportedOp, p2, p3 - p2)
            | .Bytes, .matchesTok =>
              match lexPattern s4 p4 with
              | .ok (pat, s5, p5) => .ok (.Op field (.Matches pat), s5, p5)
              | .error e => .error e
            | .Bool, _ => .error (.UnsupportedOp, p2, p3 - p2)
            | _, .matchesTok => .error (.UnsupportedOp, p2, p3 - p2)
          | .error e => .error e
      | .error e => .error e
termination_by structural fuel

end

/-- Modelled from the spec: the parse entry point — the whole input
must be consumed, trailing text is a positioned error anchored at the
first unconsumed byte. -/
def Scheme.parse (scheme : Scheme) (input : String) : Except LexError Filter :=
  match parseOr (4 * input.data.length + 8) scheme input.data 0 with
  | .ok (f, rest, pos) =>
    let (rest1, pos1) := skipSpaces rest pos
    match rest1 with
    | [] => .ok f
    | _ => .error (.TrailingInput, pos1, rest1.length)
  | .error e => .error e

/-- FFI wrapper from ffi/src/lib.rs: parse a filter against a scheme;
on failure the positioned error is rendered through ParseError into
the caller-displayable string. -/
def wirefilter_parse_filter (scheme : Scheme) (input : String) :
    Except String Filter :=
  match Scheme.parse scheme input with
  | .ok f => .ok f
  | .error e => .error (ParseError.new input e).display

/-- FFI wrapper from ffi/src/lib.rs: a fresh scheme
(Context::default()). -/
def wirefilter_create_scheme : Scheme := []

/-- FFI wrapper from ffi/src/lib.rs: a fresh execution context
(Context::default()). -/
def wirefilter_create_execution_context : ExecutionContext := []

/-- The scheme built by the FFI test fixture test_with_scheme:
ip1, ip2 as Ip; str1, str2 as Bytes; num1, num2 as Unsigned. -/
def testScheme : Scheme :=
  wirefilter_add_unsigned_type_field_to_scheme
    (wirefilter_add_unsigned_type_field_to_scheme
      (wirefilter_add_bytes_type_field_to_scheme
        (wirefilter_add_bytes_type_field_to_scheme
          (wirefilter_add_ip_type_field_to_scheme
            (wirefilter_add_ip_type_field_to_scheme
              wirefilter_create_scheme "ip1")
            "ip2")
          "str1")
        "str2")
      "num1")
    "num2"

/-- The execution context built by the FFI test fixture
create_execution_context: ip1=127.0.0.1, ip2=192.168.0.1, str1="Hey",
str2="yo123", num1=42, num2=1337. -/
def testExecContext : ExecutionContext :=
  wirefilter_add_unsigned_value_to_execution_context
    (wirefilter_add_unsigned_value_to_execution_context
      (wirefilter_add_bytes_value_to_execution_context
        (wirefilter_add_bytes_value_to_execution_context
          (wirefilter_add_ip_value_to_execution_context IpAddr.fromStr
            (wirefilter_add_ip_value_to_execution_context IpAddr.fromStr
              wirefilter_create_execution_context "ip1" "127.0.0.1")
            "ip2" "192.168.0.1")
          "str1" "Hey")
        "str2" "yo123")
      "num1" 42)
    "num2" 1337

mutual

/-- Whether a filter tree contains a leaf on the given field name
(specification vocabulary for "a filter that references a field"). -/
def Filter.references (field : String) : Filter → Bool
  | .Op f _ => f == field
  | .Combine _ children => Filter.referencesAny field children
  | .Not child => Filter.references field child

/-- Whether any filter in a child sequence references the field. -/
def Filter.referencesAny (field : String) : List Filter → Bool
  | [] => false
  | c :: rest => Filter.references field c || Filter.referencesAny field rest

end

/-- Whether the haystack starts with the needle. -/
def segStartsAt : List Char → List Char → Bool
  | [], _ => true
  | _ :: _, [] => false
  | a :: as, b :: bs => a == b && segStartsAt as bs

/-- Whether the needle occurs contiguously anywhere in the haystack
(specification vocabulary for "the message contains the name"). -/
def containsSeg (needle : List Char) : List Char → Bool
  | [] => segStartsAt needle []
  | c :: cs => segStartsAt needle (c :: cs) || containsSeg needle cs

/-- Outcome of a call that either panics (a fatal, non-recoverable
failure) or returns a value; distinguishes the Rust panic channel from
ordinary returns. -/
inductive PanicOr (α : Type)
  | panicked (msg : String)
  | returned (a : α)

/-- Embedding of `impl Lex for UninhabitedBool` from
engine/src/rhs_types/bool.rs: the body is `unreachable!()`, an
unconditional panic with the std unreachable message, so the function
never reaches the return channel (which would need an UninhabitedBool
value and a remaining-input slice, modelled as the returned arm). -/
def UninhabitedBool.lex (_input : String) :
    PanicOr (Except LexError (UninhabitedBool × String)) :=
  .panicked "internal error: entered unreachable code"

/-- Claim C1: parsing num1 == "abc" against a scheme declaring num1 as
Unsigned fails with the expected-digit error whose span covers the
five bytes of the quoted string starting at offset 8, and the rendered
diagnostic is exactly the pinned header / quoted-input / caret-line /
message string. -/
theorem parse_error_diagnostic_exact :
    Scheme.parse testScheme "num1 == \"abc\"" = .error (.ExpectedDigit, 8, 5) ∧
    wirefilter_parse_filter testScheme "num1 == \"abc\"" =
      .error "Filter parsing error:\n`num1 == \"abc\"`\n         ^^^^^ expected digit\n" :=
  ⟨rfl, rfl⟩

/-- Claim C2: for every ParseError over input s with span start b and
span length l, the rendered diagnostic is the header line, s between
backticks on its own line, then b + 1 spaces, max (1, l) carets, a
space and the message. -/
theorem parse_error_display_shape (msg input : String) (b l : Nat) :
    ParseError.display { msg := msg, span_start := b, span_len := l, input := input } =
      "Filter parsing error:\n" ++ "`" ++ input ++ "`" ++ "\n" ++
        String.mk (List.replicate (b + 1) ' ') ++
        String.mk (List.replicate (max 1 l) '^') ++ " " ++ msg ++ "\n" := by
  apply String.ext
  simp [ParseError.display, pushRepeated_eq, Nat.add_comm]

/-- Claim C3 counterexample: a successfully parsed filter that
references num1 — an Or whose first child is true — evaluates to a
plain boolean against a context into which num1 was never inserted,
because the evaluator short-circuits before reaching num1; no fatal
error is raised. -/
theorem missing_field_short_circuit_counterexample :
    Scheme.parse testScheme "num2 == 1337 || num1 == 42" =
      .ok (.Combine .Or [.Op "num2" (.Ordering .Equal (.Unsigned 1337)),
                         .Op "num1" (.Ordering .Equal (.Unsigned 42))]) ∧
    Filter.references "num1"
      (.Combine .Or [.Op "num2" (.Ordering .Equal (.Unsigned 1337)),
                     .Op "num1" (.Ordering .Equal (.Unsigned 42))]) = true ∧
    Context.lookup [("num2", LhsValue.Unsigned 1337)] "num1" =
      (none : Option LhsValue) ∧
    wirefilter_match
      (.Combine .Or [.Op "num2" (.Ordering .Equal (.Unsigned 1337)),
                     .Op "num1" (.Ordering .Equal (.Unsigned 42))])
      [("num2", LhsValue.Unsigned 1337)] = .ok true :=
  ⟨rfl, rfl, rfl, rfl⟩

/-- Claim C3 (amended): whenever evaluation reaches the lookup of
num1 — in particular for every leaf comparison on num1 — evaluating
against an execution context into which num1 was never inserted is a
fatal usage error whose message contains num1, never a default
boolean. -/
theorem missing_field_fatal_at_leaf (fop : FilterOp) (ctx : ExecutionContext)
    (h : Context.lookup ctx "num1" = none) :
    wirefilter_match (.Op "num1" fop) ctx = .error (missingFieldMsg "num1") ∧
    containsSeg "num1".data (missingFieldMsg "num1").data = true := by
  refine ⟨?_, by decide⟩
  show Filter.execute ctx (.Op "num1" fop) = .error (missingFieldMsg "num1")
  simp [Filter.execute, h]

theorem missing_field_fatal_at_leaf_witness :
    wirefilter_match (.Op "num1" (.Ordering .Equal (.Unsigned 42)))
      wirefilter_create_execution_context = .error (missingFieldMsg "num1") ∧
    containsSeg "num1".data (missingFieldMsg "num1").data = true :=
  missing_field_fatal_at_leaf (.Ordering .Equal (.Unsigned 42))
    wirefilter_create_execution_context rfl

/-- Claim C4: after num1 is inserted as Unsigned and re-inserted as
Bytes into the same execution context, evaluating the parsed filter
num1 == 42 raises the fatal type-drift error naming the expected type
Unsigned and the actual type Bytes. -/
theorem type_drift_fatal :
    Scheme.parse testScheme "num1 == 42" =
      .ok (.Op "num1" (.Ordering .Equal (.Unsigned 42))) ∧
    wirefilter_match (.Op "num1" (.Ordering .Equal (.Unsigned 42)))
      (wirefilter_add_bytes_value_to_execution_context testExecContext "num1" "Hey") =
      .error "Field num1 was previously registered with type Unsigned but now contains Bytes" ∧
    containsSeg "Unsigned".data
      "Field num1 was previously registered with type Unsigned but now contains Bytes".data = true ∧
    containsSeg "Bytes".data
      "Field num1 was previously registered with type Unsigned but now contains Bytes".data = true :=
  ⟨rfl, rfl, by decide, by decide⟩

/-- Claim C5: for every address parser, execution context, field name
and value text, the IP insertion wrapper leaves the context completely
unchanged when the text does not parse, and binds the field to the
parsed address when it does. -/
theorem add_ip_value_noop_or_bind (fromStr : String → Option IpAddr)
    (ctx : ExecutionContext) (name value : String) :
    (fromStr value = none →
      wirefilter_add_ip_value_to_execution_context fromStr ctx name value = ctx) ∧
    ∀ ip, fromStr value = some ip →
      wirefilter_add_ip_value_to_execution_context fromStr ctx name value =
        Context.insert ctx name (.Ip ip) := by
  constructor
  · intro h
    simp [wirefilter_add_ip_value_to_execution_context, h]
  · intro ip h
    simp [wirefilter_add_ip_value_to_execution_context, h]

theorem add_ip_value_noop_or_bind_witness :
    wirefilter_add_ip_value_to_execution_context IpAddr.fromStr
      wirefilter_create_execution_context "ip1" "not an ip" =
      wirefilter_create_execution_context ∧
    wirefilter_add_ip_value_to_execution_context IpAddr.fromStr
      wirefilter_create_execution_context "ip1" "127.0.0.1" =
      [("ip1", LhsValue.Ip (IpAddr.V4 127 0 0 1))] :=
  ⟨(add_ip_value_noop_or_bind IpAddr.fromStr
      wirefilter_create_execution_context "ip1" "not an ip").1 rfl,
   (add_ip_value_noop_or_bind IpAddr.fromStr
      wirefilter_create_execution_context "ip1" "127.0.0.1").2
     (IpAddr.V4 127 0 0 1) rfl⟩

/-- Claim C6: against the test scheme and the test execution context,
the first end-to-end filter parses and evaluates to true and the
second parses and evaluates to false. -/
theorem end_to_end_match :
    (Scheme.parse testScheme
        "num1 > 41 && num2 == 1337 && ip1 != 192.168.0.1 && str2 ~ \"yo\\d+\"").toOption.map
      (fun f => wirefilter_match f testExecContext) = some (.ok true) ∧
    (Scheme.parse testScheme "ip1 == 127.0.0.1 && ip2 == 127.0.0.2").toOption.map
      (fun f => wirefilter_match f testExecContext) = some (.ok false) :=
  ⟨rfl, rfl⟩

/-- Claim C7: an And pair whose first child evaluates to false
evaluates to false whatever the second child is — including one whose
evaluation would be a fatal error — and symmetrically an Or pair whose
first child evaluates to true evaluates to true. -/
theorem combine_short_circuit (ctx : ExecutionContext) (f1 f2 : Filter) :
    (Filter.execute ctx f1 = .ok false →
      Filter.execute ctx (.Combine .And [f1, f2]) = .ok false) ∧
    (Filter.execute ctx f1 = .ok true →
      Filter.execute ctx (.Combine .Or [f1, f2]) = .ok true) := by
  constructor
  · intro h
    simp [Filter.execute, Filter.executeAnd, h]
  · intro h
    simp [Filter.execute, Filter.executeOr, h]

theorem combine_short_circuit_witness :
    Filter.execute [("num1", LhsValue.Unsigned 42)]
      (.Op "missing" (.Ordering .Equal (.Unsigned 0))) =
      .error (missingFieldMsg "missing") ∧
    Filter.execute [("num1", LhsValue.Unsigned 42)]
      (.Combine .And [.Op "num1" (.Ordering .Equal (.Unsigned 1)),
                      .Op "missing" (.Ordering .Equal (.Unsigned 0))]) = .ok false ∧
    Filter.execute [("num1", LhsValue.Unsigned 42)]
      (.Combine .Or [.Op "num1" (.Ordering .Equal (.Unsigned 42)),
                     .Op "missing" (.Ordering .Equal (.Unsigned 0))]) = .ok true :=
  ⟨rfl,
   (combine_short_circuit [("num1", LhsValue.Unsigned 42)]
     (.Op "num1" (.Ordering .Equal (.Unsigned 1)))
     (.Op "missing" (.Ordering .Equal (.Unsigned 0)))).1 rfl,
   (combine_short_circuit [("num1", LhsValue.Unsigned 42)]
     (.Op "num1" (.Ordering .Equal (.Unsigned 42)))
     (.Op "missing" (.Ordering .Equal (.Unsigned 0)))).2 rfl⟩

/-- Claim C8: a run of three atomic comparisons joined by the same
connective parses to one flat Combine node with the three children in
order, for And and for Or alike. -/
theorem connective_run_flattening :
    Scheme.parse testScheme "num1 == 1 && num2 == 2 && num1 == 3" =
      .ok (.Combine .And [.Op "num1" (.Ordering .Equal (.Unsigned 1)),
                          .Op "num2" (.Ordering .Equal (.Unsigned 2)),
                          .Op "num1" (.Ordering .Equal (.Unsigned 3))]) ∧
    Scheme.parse testScheme "num1 == 1 || num2 == 2 || num1 == 3" =
      .ok (.Combine .Or [.Op "num1" (.Ordering .Equal (.Unsigned 1)),
                         .Op "num2" (.Ordering .Equal (.Unsigned 2)),
                         .Op "num1" (.Ordering .Equal (.Unsigned 3))]) :=
  ⟨rfl, rfl⟩

/-- Claim C9: UninhabitedBool has no values, and the equality test,
partial ordering and borrow conversion against a concrete boolean are
vacuously total — every property of them holds because no instance
can be constructed. -/
theorem uninhabited_bool_vacuous :
    IsEmpty UninhabitedBool ∧
    ∀ (b : Bool) (u : UninhabitedBool),
      boolEqUninhabited b u = true ∧ boolEqUninhabited b u = false ∧
      UninhabitedBool.borrowBool u = b ∧
      boolPartialCmpUninhabited b u = none :=
  ⟨⟨fun u => nomatch u⟩, fun _ u => nomatch u⟩

/-- Claim C10: the literal lexer for the boolean RHS type panics
unconditionally with the unreachable-code message on every input, and
no successful token of that type can exist at all, so no code path
produces a boolean literal. -/
theorem uninhabited_bool_lex_never_token :
    (∀ input, UninhabitedBool.lex input =
      .panicked "internal error: entered unreachable code") ∧
    ∀ (t : UninhabitedBool × String), False :=
  ⟨fun _ => rfl, fun t => nomatch t.1⟩

end Wirefilter
